import Mathlib

/-!
# Verification of the Python package build orchestrator

Shallow embedding of `src/scripts/build_python.py`.  Filesystem paths are
lists of components relative to the workspace root; the external world
(directory existence, `shutil.rmtree` success, the external build tool's
process result, the contents of the shared output directory at summary
time) is an explicit environment record.  The orchestrator `mainRun`
is a direct translation of `main`: it returns `Except PyError RunResult`,
where `PyError` models a Python exception escaping `main` (there is no
try/except in `main`, so such an exception aborts the whole process).
-/

/-- A Python exception that can escape the orchestrator. -/
inductive PyError where
  /-- The `FileNotFoundError` / `OSError` raised by `subprocess.run` when the
  child process cannot even be started (missing interpreter or tool);
  `run_command` only catches `subprocess.CalledProcessError`. -/
  | fileNotFoundError (msg : String)
  /-- The `OSError` (e.g. `PermissionError`) raised by `shutil.rmtree`;
  `main` has no handler for it. -/
  | osError (path : List String)
  deriving DecidableEq, Repr

/-- Result of attempting to run the external build tool:
either `subprocess.run` returned (with a return code and captured
stdout/stderr), or the process could not be started at all. -/
inductive ProcResult where
  | completed (returncode : Nat) (stdout stderr : String)
  | startError (msg : String)
  deriving DecidableEq, Repr

/-- Embedding of `run_command` (src/scripts/build_python.py lines 32-44):
runs the
command with `check=True, capture_output=True`; a zero exit returns
`(True, stdout)`, a non-zero exit raises `CalledProcessError` which is
caught and turned into `(False, e.stderr)`; failure to start the process
raises `FileNotFoundError`, which is NOT caught and propagates. -/
def run_command : ProcResult → Except PyError (Bool × String)
  | .completed 0 out _ => .ok (true, out)
  | .completed (_ + 1) _ err => .ok (false, err)
  | .startError m => .error (.fileNotFoundError m)

/-- One line of output rendered by the script, abstracted by kind. -/
inductive OutEvent where
  /-- Banner printed by `print_section(msg)`. -/
  | sectionHeader (msg : String)
  /-- Notice `print(f"Skipping {package} (no pyproject.toml)")`. -/
  | skipping (pkg : String)
  /-- Progress line `print(f"Building {package}...")`. -/
  | building (pkg : String)
  /-- Line `print_success(f"{package} built successfully")`. -/
  | success (pkg : String)
  /-- Line `print_error(f"{package} build failed:")`. -/
  | errorMsg (pkg : String)
  /-- Line `print(output)`: the captured stderr printed right after a failure. -/
  | diagnostic (text : String)
  /-- The "Successfully built N package(s):" header. -/
  | successHeader (n : Nat)
  /-- One `  ✓ {pkg}` line in the summary. -/
  | successItem (pkg : String)
  /-- The "Failed to build N package(s):" header. -/
  | failHeader (n : Nat)
  /-- One `  ✗ {pkg}` line in the summary. -/
  | failItem (pkg : String)
  /-- The "Built wheel files:" header. -/
  | artifactHeader
  /-- One `  {whl.name} ({size} MB)` line; the byte size is kept exact. -/
  | artifactLine (name : String) (bytes : Nat)
  /-- The "Installation command:" footer. -/
  | installCmd
  deriving DecidableEq, Repr

/-- The unverified external world the script interacts with. -/
structure Env where
  /-- Result of `package_dir.exists()` for a candidate name. -/
  pkgDirExists : String → Bool
  /-- Result of `(package_dir / "pyproject.toml").exists()` per candidate. -/
  pyprojectExists : String → Bool
  /-- Result of `cleanup_path.exists()` for a stale-artifact path. -/
  cleanupExists : List String → Bool
  /-- Whether `shutil.rmtree` on that path succeeds (`false` = raises). -/
  rmtreeOk : List String → Bool
  /-- Result of invoking the external build tool in a package directory. -/
  build : String → ProcResult
  /-- Result of `dist_dir.exists()` at summary time. -/
  distDirExists : Bool
  /-- The `(file name, byte size)` entries of the shared output directory
  at summary time (whatever is there, including leftovers). -/
  distFiles : List (String × Nat)

/-- Path `python_dir = workspace_root / "clients" / "python"` (line 50). -/
def pythonDir : List String := ["clients", "python"]

/-- Path `dist_dir = workspace_root / "dist" / "python"` (line 51). -/
def distDir : List String := ["dist", "python"]

/-- Path `package_dir = python_dir / package` (line 70). -/
def packageDir (pkg : String) : List String := pythonDir ++ [pkg]

/-- The fixed candidate list (line 64). -/
def PACKAGES : List String := ["core", "idp", "notification"]

/-- The enumerated stale-artifact subdirectory names for a package
(line 79). -/
def cleanupDirs (pkg : String) : List String :=
  ["build", "dist", pkg ++ ".egg-info", "geniustechspace_" ++ pkg ++ ".egg-info"]

/-- The eligibility test of line 72: the package directory exists and
contains `pyproject.toml`. -/
def eligible (env : Env) (pkg : String) : Bool :=
  env.pkgDirExists pkg && env.pyprojectExists pkg

/-- The cleanup loop of lines 79-82 over the remaining cleanup directory
names: for each, if the path exists, `shutil.rmtree` it (which may raise);
returns the list of paths actually removed, in order. -/
def cleanupStep (env : Env) (pkg : String) :
    List String → Except PyError (List (List String))
  | [] => .ok []
  | d :: ds =>
    let p := packageDir pkg ++ [d]
    if env.cleanupExists p then
      if env.rmtreeOk p then
        (cleanupStep env pkg ds).map (fun rest => p :: rest)
      else
        .error (.osError p)
    else
      cleanupStep env pkg ds

/-- Mutable state threaded through the `for package in packages` loop:
removals performed so far, output printed so far, and the
`built_packages` / `failed_packages` accumulators. -/
structure RunState where
  removals : List (List String)
  trace : List OutEvent
  built : List String
  failed : List String
  deriving DecidableEq, Repr

/-- The loop body of lines 69-96 for one candidate name. -/
def processPackage (env : Env) (st : RunState) (pkg : String) :
    Except PyError RunState :=
  if eligible env pkg then
    match cleanupStep env pkg (cleanupDirs pkg) with
    | .error e => .error e
    | .ok removed =>
      match run_command (env.build pkg) with
      | .error e => .error e
      | .ok (true, _out) =>
        .ok { removals := st.removals ++ removed
              trace := st.trace ++ [.building pkg, .success pkg]
              built := st.built ++ [pkg]
              failed := st.failed }
      | .ok (false, errText) =>
        .ok { removals := st.removals ++ removed
              trace := st.trace ++ [.building pkg, .errorMsg pkg, .diagnostic errText]
              built := st.built
              failed := st.failed ++ [pkg] }
  else
    .ok { st with trace := st.trace ++ [.skipping pkg] }

/-- The whole `for package in packages` loop. -/
def mainLoop (env : Env) : List String → RunState → Except PyError RunState
  | [], st => .ok st
  | p :: ps, st =>
    match processPackage env st p with
    | .error e => .error e
    | .ok st2 => mainLoop env ps st2

/-- Lexicographic comparison of character lists by code points, which is
how Python compares the file names when sorting same-directory paths. -/
def charListLe : List Char → List Char → Bool
  | [], _ => true
  | _ :: _, [] => false
  | a :: as, b :: bs => if a = b then charListLe as bs else decide (a < b)

/-- The relation used by Python's `sorted` on same-directory paths:
lexicographic comparison of the file names. -/
def nameLe (a b : String × Nat) : Prop := charListLe a.1.data b.1.data = true

instance : DecidableRel nameLe := fun a b => by
  unfold nameLe; infer_instance

/-- The name test of `dist_dir.glob("*.whl")`: the file name ends in
`.whl` (suffix test on the character list). -/
def matchesWhl (name : String) : Bool :=
  List.isSuffixOf (".whl".data) name.data

/-- Result of `dist_dir.glob("*.whl")` at summary time. -/
def whlFiles (env : Env) : List (String × Nat) :=
  env.distFiles.filter (fun f => matchesWhl f.1)

/-- Result of `sorted(whl_files)` (line 116). -/
def whlSorted (env : Env) : List (String × Nat) :=
  List.insertionSort nameLe (whlFiles env)

/-- The summary output of lines 98-121. -/
def summaryTrace (env : Env) (built failed : List String) : List OutEvent :=
  [.sectionHeader "Build Summary"]
  ++ (if built.isEmpty then [] else
        .successHeader built.length :: built.map .successItem)
  ++ (if failed.isEmpty then [] else
        .failHeader failed.length :: failed.map .failItem)
  ++ (if env.distDirExists then
        (if (whlFiles env).isEmpty then [] else
          .artifactHeader
            :: (whlSorted env).map (fun f => .artifactLine f.1 f.2)
            ++ [.installCmd])
      else [])

/-- The aggregate result of a completed run. -/
structure RunResult where
  successes : List String
  failures : List String
  removals : List (List String)
  trace : List OutEvent
  exitCode : Nat
  deriving DecidableEq, Repr

/-- The initial state: the run-start banner has been printed, nothing
built yet. -/
def initState : RunState :=
  { removals := []
    trace := [.sectionHeader "Building Python Packages for Distribution"]
    built := []
    failed := [] }

/-- Embedding of `main` (lines 46-124): run the loop over the fixed
candidate list,
then render the summary and return the exit code
(`0 if not failed_packages else 1`).  An uncaught Python exception
surfaces as `.error`. -/
def mainRun (env : Env) : Except PyError RunResult :=
  match mainLoop env PACKAGES initState with
  | .error e => .error e
  | .ok st =>
    .ok { successes := st.built
          failures := st.failed
          removals := st.removals
          trace := st.trace ++ summaryTrace env st.built st.failed
          exitCode := if st.failed.isEmpty then 0 else 1 }

/-- Whether the external build tool, run for `pkg`, exits with code 0. -/
def buildOk (env : Env) (pkg : String) : Bool :=
  match env.build pkg with
  | .completed 0 _ _ => true
  | _ => false

/-- The stale-artifact paths actually removed for one candidate on a run
that completes: nothing for an ineligible candidate, otherwise the
existing ones among its enumerated cleanup paths, in order. -/
def pkgRemovals (env : Env) (pkg : String) : List (List String) :=
  if eligible env pkg then
    ((cleanupDirs pkg).map (fun d => packageDir pkg ++ [d])).filter
      env.cleanupExists
  else []

/-- The output printed for one candidate on a run that completes. -/
def pkgTrace (env : Env) (pkg : String) : List OutEvent :=
  if eligible env pkg then
    match env.build pkg with
    | .completed 0 _ _ => [.building pkg, .success pkg]
    | .completed (_ + 1) _ err =>
        [.building pkg, .errorMsg pkg, .diagnostic err]
    | .startError _ => []
  else [.skipping pkg]

/-- Recognizer for the artifact lines of the summary output. -/
def artifactEntry : OutEvent → Option (String × Nat)
  | .artifactLine name bytes => some (name, bytes)
  | _ => none

/-- A concrete world realizing §8's scenario: `core` and `idp` have a
directory with `pyproject.toml`; `core` has one stale `build` directory;
`core` builds cleanly, `idp` fails with stderr "missing dependency X";
`notification` has no directory; two wheels and one stray file sit in the
shared output directory at summary time. -/
def envW : Env where
  pkgDirExists := fun p => p == "core" || p == "idp"
  pyprojectExists := fun p => p == "core" || p == "idp"
  cleanupExists := fun p => p == ["clients", "python", "core", "build"]
  rmtreeOk := fun _ => true
  build := fun p =>
    if p == "core" then .completed 0 "ok" ""
    else .completed 1 "" "missing dependency X"
  distDirExists := true
  distFiles := [("b.whl", 10), ("a.whl", 5), ("c.txt", 1)]

/-- The run result `mainRun` computes on `envW` (checked by `rfl` in the
witnesses below). -/
def rW : RunResult where
  successes := ["core"]
  failures := ["idp"]
  removals := [["clients", "python", "core", "build"]]
  trace := [.sectionHeader "Building Python Packages for Distribution",
    .building "core", .success "core",
    .building "idp", .errorMsg "idp", .diagnostic "missing dependency X",
    .skipping "notification",
    .sectionHeader "Build Summary",
    .successHeader 1, .successItem "core",
    .failHeader 1, .failItem "idp",
    .artifactHeader, .artifactLine "a.whl" 5, .artifactLine "b.whl" 10,
    .installCmd]
  exitCode := 1

/-- A world where `core` is eligible but the external build tool cannot
be started for it (e.g. the interpreter binary is missing). -/
def envC1 : Env where
  pkgDirExists := fun p => p == "core"
  pyprojectExists := fun p => p == "core"
  cleanupExists := fun _ => false
  rmtreeOk := fun _ => true
  build := fun _ => .startError "No such file or directory"
  distDirExists := true
  distFiles := []

/-- A world where `core` is eligible, its stale `build` directory exists,
and `shutil.rmtree` on it fails (e.g. permission denied). -/
def envC2 : Env where
  pkgDirExists := fun p => p == "core"
  pyprojectExists := fun p => p == "core"
  cleanupExists := fun p => p == ["clients", "python", "core", "build"]
  rmtreeOk := fun _ => false
  build := fun _ => .completed 0 "" ""
  distDirExists := true
  distFiles := []

/-- A world where no candidate has a directory with `pyproject.toml`. -/
def envAllSkip : Env where
  pkgDirExists := fun _ => false
  pyprojectExists := fun _ => false
  cleanupExists := fun _ => false
  rmtreeOk := fun _ => true
  build := fun _ => .completed 0 "" ""
  distDirExists := true
  distFiles := []

/-- The run result `mainRun` computes on `envAllSkip`: nothing built,
nothing failed, exit code 0. -/
def rAllSkip : RunResult where
  successes := []
  failures := []
  removals := []
  trace := [.sectionHeader "Building Python Packages for Distribution",
    .skipping "core", .skipping "idp", .skipping "notification",
    .sectionHeader "Build Summary"]
  exitCode := 0

theorem charListLe_total : ∀ a b : List Char,
    charListLe a b = true ∨ charListLe b a = true
  | [], _ => Or.inl rfl
  | _ :: _, [] => Or.inr rfl
  | a :: as, b :: bs => by
    by_cases hab : a = b
    · subst hab
      rcases charListLe_total as bs with h | h
      · exact Or.inl (by simpa [charListLe] using h)
      · exact Or.inr (by simpa [charListLe] using h)
    · rcases lt_or_gt_of_ne hab with h | h
      · exact Or.inl (by simp [charListLe, hab, h])
      · exact Or.inr (by simp [charListLe, Ne.symm hab, h])

theorem charListLe_trans : ∀ a b c : List Char,
    charListLe a b = true → charListLe b c = true → charListLe a c = true
  | [], _, _, _, _ => rfl
  | _ :: _, [], _, h1, _ => by simp [charListLe] at h1
  | _ :: _, _ :: _, [], _, h2 => by simp [charListLe] at h2
  | a :: as, b :: bs, c :: cs, h1, h2 => by
    by_cases hab : a = b
    · subst hab
      by_cases hac : a = c
      · subst hac
        simp only [charListLe, if_pos rfl] at h1 h2 ⊢
        exact charListLe_trans as bs cs h1 h2
      · simpa [charListLe, hac] using h2
    · simp only [charListLe, if_neg hab, decide_eq_true_eq] at h1
      by_cases hbc : b = c
      · subst hbc; simpa [charListLe, hab] using h1
      · simp only [charListLe, if_neg hbc, decide_eq_true_eq] at h2
        have hac : a ≠ c := fun he => absurd (h1.trans h2) (he ▸ lt_irrefl a)
        simp [charListLe, hac, h1.trans h2]

/-- Comparison `charListLe` is exactly the reflexive closure of Mathlib's
lexicographic strict order on lists of characters. -/
theorem charListLe_iff_lex : ∀ a b : List Char,
    charListLe a b = true ↔ (List.Lex (· < ·) a b ∨ a = b)
  | [], [] => by simp [charListLe]
  | [], _ :: _ => by simp [charListLe, List.Lex.nil]
  | _ :: _, [] => by
    simp only [charListLe, Bool.false_eq_true, false_iff]
    rintro (h | h)
    · cases h
    · simp at h
  | a :: as, b :: bs => by
    by_cases hab : a = b
    · subst hab
      have hstep : charListLe (a :: as) (a :: bs) = charListLe as bs := by
        simp [charListLe]
      rw [hstep, charListLe_iff_lex as bs]
      constructor
      · rintro (h | h)
        · exact Or.inl (List.Lex.cons h)
        · exact Or.inr (by rw [h])
      · rintro (h | h)
        · cases h with
          | cons h => exact Or.inl h
          | rel h => exact absurd h (lt_irrefl a)
        · simp only [List.cons.injEq] at h
          exact Or.inr h.2
    · simp only [charListLe, if_neg hab, decide_eq_true_eq]
      constructor
      · intro h; exact Or.inl (List.Lex.rel h)
      · rintro (h | h)
        · cases h with
          | cons _ => exact absurd rfl hab
          | rel h => exact h
        · simp only [List.cons.injEq] at h
          exact absurd h.1 hab

theorem cleanupStep_ok (env : Env) (pkg : String) :
    ∀ (ds : List String) (r : List (List String)),
      cleanupStep env pkg ds = .ok r →
      r = ((ds.map (fun d => packageDir pkg ++ [d])).filter
        env.cleanupExists) := by
  intro ds
  induction ds with
  | nil =>
    intro r h
    simp only [cleanupStep, Except.ok.injEq] at h
    simp [h.symm]
  | cons d ds ih =>
    intro r h
    simp only [cleanupStep] at h
    by_cases hx : env.cleanupExists (packageDir pkg ++ [d])
    · rw [if_pos hx] at h
      by_cases hr : env.rmtreeOk (packageDir pkg ++ [d])
      · rw [if_pos hr] at h
        cases hrec : cleanupStep env pkg ds with
        | error e => rw [hrec] at h; simp [Except.map] at h
        | ok rest =>
          rw [hrec] at h
          simp only [Except.map, Except.ok.injEq] at h
          rw [List.map_cons, List.filter_cons, if_pos hx, ← h, ih rest hrec]
      · rw [if_neg hr] at h; simp at h
    · rw [if_neg hx] at h
      rw [List.map_cons, List.filter_cons, if_neg hx]
      exact ih r h

theorem cleanupStep_noop (env : Env) (pkg : String) :
    ∀ (ds : List String),
      (∀ d ∈ ds, env.cleanupExists (packageDir pkg ++ [d]) = false) →
      cleanupStep env pkg ds = .ok [] := by
  intro ds
  induction ds with
  | nil => intro _; rfl
  | cons d ds ih =>
    intro h
    simp only [cleanupStep]
    rw [if_neg (by simp [h d (by simp)])]
    exact ih (fun x hx => h x (List.mem_cons_of_mem d hx))

theorem mainLoop_ok (env : Env) (l : List String) :
    ∀ (st r : RunState), mainLoop env l st = .ok r →
      r.removals = st.removals ++ l.flatMap (pkgRemovals env) ∧
      r.trace = st.trace ++ l.flatMap (pkgTrace env) ∧
      r.built = st.built ++
        l.filter (fun p => eligible env p && buildOk env p) ∧
      r.failed = st.failed ++
        l.filter (fun p => eligible env p && !(buildOk env p)) := by
  induction l with
  | nil =>
    intro st r h
    simp only [mainLoop, Except.ok.injEq] at h
    simp [← h]
  | cons p ps ih =>
    intro st r h
    simp only [mainLoop, processPackage] at h
    by_cases he : eligible env p
    · rw [if_pos he] at h
      cases hc : cleanupStep env p (cleanupDirs p) with
      | error e => rw [hc] at h; simp at h
      | ok removed =>
        rw [hc] at h
        have hrem := cleanupStep_ok env p (cleanupDirs p) removed hc
        cases hb : env.build p with
        | startError m =>
          rw [hb] at h; simp [run_command] at h
        | completed code out err =>
          rw [hb] at h
          cases code with
          | zero =>
            simp only [run_command] at h
            obtain ⟨h1, h2, h3, h4⟩ := ih _ r h
            refine ⟨?_, ?_, ?_, ?_⟩ <;>
              simp [h1, h2, h3, h4, pkgRemovals, pkgTrace, buildOk, he,
                hb, hrem, List.filter_cons]
          | succ n =>
            simp only [run_command] at h
            obtain ⟨h1, h2, h3, h4⟩ := ih _ r h
            refine ⟨?_, ?_, ?_, ?_⟩ <;>
              simp [h1, h2, h3, h4, pkgRemovals, pkgTrace, buildOk, he,
                hb, hrem, List.filter_cons]
    · rw [if_neg he] at h
      obtain ⟨h1, h2, h3, h4⟩ := ih _ r h
      refine ⟨?_, ?_, ?_, ?_⟩ <;>
        simp [h1, h2, h3, h4, pkgRemovals, pkgTrace, he, List.filter_cons]

theorem mainLoop_append (env : Env) (l1 l2 : List String) :
    ∀ st, mainLoop env (l1 ++ l2) st =
      (mainLoop env l1 st).bind (fun st2 => mainLoop env l2 st2) := by
  induction l1 with
  | nil => intro st; simp [mainLoop, Except.bind]
  | cons p ps ih =>
    intro st
    simp only [List.cons_append, mainLoop]
    cases processPackage env st p with
    | error e => simp [Except.bind]
    | ok st2 => simp [Except.bind, ih st2]

/-- Characterization of a completed run: the successes are exactly the
eligible candidates whose build exited 0, in declaration order; the
failures are the eligible candidates whose build exited non-zero, in
declaration order; the removals and the output trace are the
concatenation, in declaration order, of each candidate's contribution,
followed by the summary; the exit code is 0 iff no failure. -/
theorem mainRun_ok (env : Env) (r : RunResult) (h : mainRun env = .ok r) :
    r.successes = PACKAGES.filter (fun p => eligible env p && buildOk env p) ∧
    r.failures =
      PACKAGES.filter (fun p => eligible env p && !(buildOk env p)) ∧
    r.removals = PACKAGES.flatMap (pkgRemovals env) ∧
    r.trace = initState.trace ++ PACKAGES.flatMap (pkgTrace env) ++
      summaryTrace env r.successes r.failures ∧
    r.exitCode = (if r.failures.isEmpty then 0 else 1) := by
  unfold mainRun at h
  cases hl : mainLoop env PACKAGES initState with
  | error e => rw [hl] at h; simp at h
  | ok st =>
    rw [hl] at h
    obtain ⟨h1, h2, h3, h4⟩ := mainLoop_ok env PACKAGES initState st hl
    simp only [Except.ok.injEq] at h
    subst h
    simp only [initState, List.nil_append] at h1 h2 h3 h4
    exact ⟨h3, h4, h1, by simp [h2, h3, h4, initState], rfl⟩

theorem length_filter_split (l : List String) (e b : String → Bool) :
    (l.filter (fun p => e p && b p)).length +
      (l.filter (fun p => e p && !(b p))).length =
      (l.filter e).length := by
  induction l with
  | nil => rfl
  | cons x xs ih =>
    by_cases hx : e x
    · by_cases hb : b x <;>
        simp [List.filter_cons, hx, hb] <;> omega
    · simp [List.filter_cons, hx, ih]

theorem packageDir_prefix_iff (q pkg d : String) :
    packageDir q <+: (packageDir pkg ++ [d]) ↔ q = pkg := by
  constructor
  · rintro ⟨t, ht⟩
    simp only [packageDir, pythonDir, List.cons_append, List.nil_append,
      List.append_assoc, List.cons.injEq, List.singleton_append] at ht
    exact ht.2.2.1
  · rintro rfl
    exact ⟨[d], by simp⟩

theorem distDir_no_overlap (pkg d : String) :
    ¬ (distDir <+: (packageDir pkg ++ [d])) := by
  rintro ⟨t, ht⟩
  simp only [distDir, packageDir, pythonDir, List.cons_append,
    List.nil_append, List.append_assoc, List.cons.injEq] at ht
  have : "dist" = "clients" := ht.1
  simp at this

/-- Claim C3: the process exit signal is 0 iff the failures list is
empty; a run in which every candidate is ineligible yields empty
successes and failures and exit 0; a run with at least one failure
yields a non-zero exit signal. -/
theorem claim_C3_exit_iff (env : Env) (r : RunResult)
    (h : mainRun env = .ok r) :
    (r.exitCode = 0 ↔ r.failures = []) ∧
    ((∀ p ∈ PACKAGES, eligible env p = false) →
      r.successes = [] ∧ r.failures = [] ∧ r.exitCode = 0) ∧
    (r.failures ≠ [] → r.exitCode ≠ 0) := by
  obtain ⟨hs, hf, -, -, he⟩ := mainRun_ok env r h
  have hiff : r.exitCode = 0 ↔ r.failures = [] := by
    rw [he]
    cases hfl : r.failures <;> simp [hfl]
  refine ⟨hiff, ?_, ?_⟩
  · intro hall
    have hsnil : r.successes = [] := by
      rw [hs]
      apply List.filter_eq_nil_iff.2
      intro p hp
      simp [hall p hp]
    have hfnil : r.failures = [] := by
      rw [hf]
      apply List.filter_eq_nil_iff.2
      intro p hp
      simp [hall p hp]
    exact ⟨hsnil, hfnil, hiff.2 hfnil⟩
  · intro hne h0
    exact hne (hiff.1 h0)

/-- Witness for C3 at the all-ineligible world: the run completes with
empty lists and exit code 0, and the iff holds there. -/
theorem claim_C3_exit_iff_witness :
    mainRun envAllSkip = Except.ok rAllSkip ∧
    (rAllSkip.exitCode = 0 ↔ rAllSkip.failures = []) :=
  ⟨rfl, (claim_C3_exit_iff envAllSkip rAllSkip rfl).1⟩

/-- Claim C9: a completed run with at least one failure exits with
code exactly 1; the exit code is never anything other than 0 or 1. -/
theorem claim_C9_exit_one (env : Env) (r : RunResult)
    (h : mainRun env = .ok r) :
    (r.failures ≠ [] → r.exitCode = 1) ∧
    (r.exitCode = 0 ∨ r.exitCode = 1) := by
  obtain ⟨-, -, -, -, he⟩ := mainRun_ok env r h
  constructor
  · intro hne
    rw [he]
    cases hfl : r.failures with
    | nil => exact absurd hfl hne
    | cons a l => simp [hfl]
  · rw [he]
    cases r.failures <;> simp

/-- Witness for C9: the mixed world has one failure and exits 1. -/
theorem claim_C9_exit_one_witness :
    mainRun envW = Except.ok rW ∧ rW.exitCode = 1 := by
  refine ⟨rfl, (claim_C9_exit_one envW rW rfl).1 ?_⟩
  simp [rW]

/-- Claim C4: on a completed run each eligible candidate lands in
exactly one of the two outcome lists, so the lengths add up to the
number of eligible candidates, no candidate is in both lists, and
ineligible candidates are in neither. -/
theorem claim_C4_partition (env : Env) (r : RunResult)
    (h : mainRun env = .ok r) :
    r.successes.length + r.failures.length =
      (PACKAGES.filter (fun p => eligible env p)).length ∧
    (∀ p, ¬ (p ∈ r.successes ∧ p ∈ r.failures)) ∧
    (∀ p ∈ PACKAGES, eligible env p = false →
      p ∉ r.successes ∧ p ∉ r.failures) := by
  obtain ⟨hs, hf, -, -, -⟩ := mainRun_ok env r h
  refine ⟨?_, ?_, ?_⟩
  · rw [hs, hf]
    exact length_filter_split PACKAGES (fun p => eligible env p)
      (fun p => buildOk env p)
  · rintro p ⟨hps, hpf⟩
    rw [hs] at hps
    rw [hf] at hpf
    have h1 := (List.mem_filter.1 hps).2
    have h2 := (List.mem_filter.1 hpf).2
    simp at h1 h2
    exact absurd h1.2 (by simp [h2.2])
  · intro p _ hie
    constructor
    · intro hps
      rw [hs] at hps
      have := (List.mem_filter.1 hps).2
      simp [hie] at this
    · intro hpf
      rw [hf] at hpf
      have := (List.mem_filter.1 hpf).2
      simp [hie] at this

/-- Witness for C4 at the mixed world: 1 success + 1 failure = 2
eligible candidates. -/
theorem claim_C4_partition_witness :
    mainRun envW = Except.ok rW ∧
    rW.successes.length + rW.failures.length =
      (PACKAGES.filter (fun p => eligible envW p)).length :=
  ⟨rfl, (claim_C4_partition envW rW rfl).1⟩

/-- Claim C5: a candidate is eligible iff its directory exists and holds
`pyproject.toml`; an ineligible candidate gets a skip notice, appears in
neither outcome list, and no stale-artifact removal ever happens under
its directory. -/
theorem claim_C5_ineligible_skipped (env : Env) (r : RunResult)
    (h : mainRun env = .ok r) (pkg : String) (hm : pkg ∈ PACKAGES)
    (hie : eligible env pkg = false) :
    eligible env pkg = (env.pkgDirExists pkg && env.pyprojectExists pkg) ∧
    pkg ∉ r.successes ∧ pkg ∉ r.failures ∧
    OutEvent.skipping pkg ∈ r.trace ∧
    (∀ p ∈ r.removals, ¬ (packageDir pkg <+: p)) := by
  obtain ⟨hs, hf, hrem, htr, -⟩ := mainRun_ok env r h
  refine ⟨rfl, ?_, ?_, ?_, ?_⟩
  · intro hps
    rw [hs] at hps
    have := (List.mem_filter.1 hps).2
    simp [hie] at this
  · intro hpf
    rw [hf] at hpf
    have := (List.mem_filter.1 hpf).2
    simp [hie] at this
  · rw [htr]
    refine List.mem_append.2 (Or.inl (List.mem_append.2 (Or.inr ?_)))
    exact List.mem_flatMap.2 ⟨pkg, hm, by simp [pkgTrace, hie]⟩
  · intro p hp
    rw [hrem] at hp
    obtain ⟨q, hqm, hqr⟩ := List.mem_flatMap.1 hp
    unfold pkgRemovals at hqr
    by_cases hq : eligible env q
    · rw [if_pos hq] at hqr
      obtain ⟨hmem, -⟩ := List.mem_filter.1 hqr
      obtain ⟨d, -, rfl⟩ := List.mem_map.1 hmem
      intro hpre
      have : pkg = q := (packageDir_prefix_iff pkg q d).1 hpre
      rw [this] at hie
      rw [hq] at hie
      exact absurd hie (by simp)
    · rw [if_neg hq] at hqr
      simp at hqr

/-- Witness for C5 at the mixed world: `notification` is ineligible and
lands in neither list. -/
theorem claim_C5_ineligible_skipped_witness :
    eligible envW "notification" = false ∧
    "notification" ∉ rW.successes ∧ "notification" ∉ rW.failures := by
  have hc := claim_C5_ineligible_skipped envW rW rfl "notification"
    (by simp [PACKAGES]) rfl
  exact ⟨rfl, hc.2.1, hc.2.2.1⟩

/-- Claim C6: candidates are processed one at a time in declaration
order (the per-candidate output blocks appear concatenated in the order
of `PACKAGES`), and the successes and failures lists are sublists of
`PACKAGES`, hence preserve its relative order. -/
theorem claim_C6_order (env : Env) (r : RunResult)
    (h : mainRun env = .ok r) :
    r.successes.Sublist PACKAGES ∧ r.failures.Sublist PACKAGES ∧
    r.trace = initState.trace ++ PACKAGES.flatMap (pkgTrace env) ++
      summaryTrace env r.successes r.failures := by
  obtain ⟨hs, hf, -, htr, -⟩ := mainRun_ok env r h
  refine ⟨?_, ?_, htr⟩
  · rw [hs]; exact List.filter_sublist PACKAGES
  · rw [hf]; exact List.filter_sublist PACKAGES

/-- Witness for C6 at the mixed world. -/
theorem claim_C6_order_witness :
    mainRun envW = Except.ok rW ∧ rW.successes.Sublist PACKAGES ∧
    rW.failures.Sublist PACKAGES :=
  ⟨rfl, (claim_C6_order envW rW rfl).1, (claim_C6_order envW rW rfl).2.1⟩

/-- Claim C7: on a completed run every removed path is one of the
enumerated stale-artifact subdirectories of some eligible candidate,
strictly inside that candidate's own directory: it lies under no other
candidate's directory and not under the shared output directory; and
when none of a candidate's cleanup paths exist, the cleanup loop is a
no-op rather than an error. -/
theorem claim_C7_isolation (env : Env) (r : RunResult)
    (h : mainRun env = .ok r) :
    (∀ p ∈ r.removals, ∃ pkg, pkg ∈ PACKAGES ∧ eligible env pkg = true ∧
      env.cleanupExists p = true ∧
      (∃ d ∈ cleanupDirs pkg, p = packageDir pkg ++ [d]) ∧
      (∀ q, q ≠ pkg → ¬ (packageDir q <+: p)) ∧
      ¬ (distDir <+: p)) ∧
    (∀ pkg, (∀ d ∈ cleanupDirs pkg,
        env.cleanupExists (packageDir pkg ++ [d]) = false) →
      cleanupStep env pkg (cleanupDirs pkg) = Except.ok []) := by
  obtain ⟨-, -, hrem, -, -⟩ := mainRun_ok env r h
  constructor
  · intro p hp
    rw [hrem] at hp
    obtain ⟨pkg, hpm, hpr⟩ := List.mem_flatMap.1 hp
    unfold pkgRemovals at hpr
    by_cases he : eligible env pkg
    · rw [if_pos he] at hpr
      obtain ⟨hmem, hex⟩ := List.mem_filter.1 hpr
      obtain ⟨d, hd, rfl⟩ := List.mem_map.1 hmem
      refine ⟨pkg, hpm, he, hex, ⟨d, hd, rfl⟩, ?_, ?_⟩
      · intro q hq hpre
        exact hq ((packageDir_prefix_iff q pkg d).1 hpre)
      · exact distDir_no_overlap pkg d
    · rw [if_neg he] at hpr
      simp at hpr
  · intro pkg hnone
    exact cleanupStep_noop env pkg (cleanupDirs pkg) hnone

/-- Witness for C7: the one path removed in the mixed world is inside
the `core` directory, under neither another candidate's directory nor
the shared output directory. -/
theorem claim_C7_isolation_witness :
    mainRun envW = Except.ok rW ∧
    ["clients", "python", "core", "build"] ∈ rW.removals ∧
    ¬ (distDir <+: ["clients", "python", "core", "build"]) ∧
    ¬ (packageDir "idp" <+: ["clients", "python", "core", "build"]) := by
  refine ⟨rfl, by simp [rW], ?_, ?_⟩
  · obtain ⟨pkg, -, -, -, -, -, hnd⟩ :=
      (claim_C7_isolation envW rW rfl).1
        ["clients", "python", "core", "build"] (by simp [rW])
    exact hnd
  · obtain ⟨pkg, -, -, -, ⟨d, -, hpd⟩, hq, -⟩ :=
      (claim_C7_isolation envW rW rfl).1
        ["clients", "python", "core", "build"] (by simp [rW])
    have hpkg : pkg = "core" := by
      simp only [packageDir, pythonDir, List.cons_append, List.nil_append,
        List.append_assoc, List.singleton_append, List.cons.injEq] at hpd
      exact hpd.2.2.1.symm
    refine hq "idp" ?_
    rw [hpkg]
    simp

/-- Claim C8: a completed run in which an eligible candidate's build
tool exited non-zero records that candidate as a failure, and the
tool's captured stderr is printed as a diagnostic line strictly before
the "Build Summary" banner. -/
theorem claim_C8_diagnostic (env : Env) (r : RunResult)
    (h : mainRun env = .ok r) (pkg : String) (hm : pkg ∈ PACKAGES)
    (he : eligible env pkg = true) (n : Nat) (out err : String)
    (hb : env.build pkg = .completed (n + 1) out err) :
    pkg ∈ r.failures ∧
    ∃ t1 t2, r.trace = t1 ++ OutEvent.sectionHeader "Build Summary" :: t2 ∧
      OutEvent.diagnostic err ∈ t1 := by
  obtain ⟨-, hf, -, htr, -⟩ := mainRun_ok env r h
  have hbo : buildOk env pkg = false := by simp [buildOk, hb]
  constructor
  · rw [hf]
    exact List.mem_filter.2 ⟨hm, by simp [he, hbo]⟩
  · refine ⟨initState.trace ++ PACKAGES.flatMap (pkgTrace env),
      (if r.successes.isEmpty then [] else
        OutEvent.successHeader r.successes.length ::
          r.successes.map OutEvent.successItem) ++
      ((if r.failures.isEmpty then [] else
        OutEvent.failHeader r.failures.length ::
          r.failures.map OutEvent.failItem) ++
      (if env.distDirExists then
        (if (whlFiles env).isEmpty then [] else
          OutEvent.artifactHeader
            :: (whlSorted env).map (fun f => OutEvent.artifactLine f.1 f.2)
            ++ [OutEvent.installCmd])
      else [])), ?_, ?_⟩
    · rw [htr]
      simp [summaryTrace]
    · refine List.mem_append.2 (Or.inr ?_)
      exact List.mem_flatMap.2 ⟨pkg, hm, by simp [pkgTrace, he, hb]⟩

/-- Witness for C8: in the mixed world `idp` fails with captured stderr
"missing dependency X" and lands in the failures list. -/
theorem claim_C8_diagnostic_witness :
    mainRun envW = Except.ok rW ∧ "idp" ∈ rW.failures := by
  refine ⟨rfl, ?_⟩
  exact (claim_C8_diagnostic envW rW rfl "idp" (by simp [PACKAGES]) rfl 0 ""
    "missing dependency X" rfl).1

theorem artifactEntry_pkgTrace_none (env : Env) (pkg : String) :
    ∀ e ∈ pkgTrace env pkg, artifactEntry e = none := by
  intro e he
  unfold pkgTrace at he
  by_cases h : eligible env pkg
  · rw [if_pos h] at he
    cases hb : env.build pkg with
    | completed code out err =>
      rw [hb] at he
      cases code with
      | zero =>
        simp only [List.mem_cons, List.not_mem_nil, or_false] at he
        rcases he with rfl | rfl <;> rfl
      | succ n =>
        simp only [List.mem_cons, List.not_mem_nil, or_false] at he
        rcases he with rfl | rfl | rfl <;> rfl
    | startError m =>
      rw [hb] at he
      simp at he
  · rw [if_neg h] at he
    simp only [List.mem_cons, List.not_mem_nil, or_false] at he
    subst he
    rfl

theorem artifactHeader_not_pkgTrace (env : Env) (pkg : String) :
    OutEvent.artifactHeader ∉ pkgTrace env pkg := by
  intro hmem
  unfold pkgTrace at hmem
  by_cases h : eligible env pkg
  · rw [if_pos h] at hmem
    cases hb : env.build pkg with
    | completed code out err =>
      rw [hb] at hmem
      cases code <;> simp at hmem
    | startError m =>
      rw [hb] at hmem
      simp at hmem
  · rw [if_neg h] at hmem
    simp at hmem

theorem filterMap_comp_artifactLine (ws : List (String × Nat)) :
    ws.filterMap (artifactEntry ∘ fun f => OutEvent.artifactLine f.1 f.2)
      = ws := by
  induction ws with
  | nil => rfl
  | cons x xs ih => simp [List.filterMap_cons, Function.comp, artifactEntry, ih]

theorem filterMap_map_none {α : Type} (g : α → OutEvent)
    (hg : ∀ x, artifactEntry (g x) = none) (l : List α) :
    (l.map g).filterMap artifactEntry = [] := by
  induction l with
  | nil => rfl
  | cons x xs ih => simp [List.filterMap_cons, hg x, ih]

theorem filterMap_summaryTrace (env : Env) (a b : List String)
    (hd : env.distDirExists = true) :
    (summaryTrace env a b).filterMap artifactEntry = whlSorted env := by
  unfold summaryTrace
  rw [hd]
  simp only [if_true]
  rw [List.filterMap_append, List.filterMap_append, List.filterMap_append]
  have hsucc : (if a.isEmpty then ([] : List OutEvent) else
      OutEvent.successHeader a.length ::
        a.map OutEvent.successItem).filterMap artifactEntry = [] := by
    split_ifs with hcase
    · rfl
    · simp [List.filterMap_cons, artifactEntry,
        filterMap_map_none OutEvent.successItem (fun _ => rfl)]
  have hfail : (if b.isEmpty then ([] : List OutEvent) else
      OutEvent.failHeader b.length ::
        b.map OutEvent.failItem).filterMap artifactEntry = [] := by
    split_ifs with hcase
    · rfl
    · simp [List.filterMap_cons, artifactEntry,
        filterMap_map_none OutEvent.failItem (fun _ => rfl)]
  have hart : (if (whlFiles env).isEmpty then ([] : List OutEvent) else
      OutEvent.artifactHeader
        :: (whlSorted env).map (fun f => OutEvent.artifactLine f.1 f.2)
        ++ [OutEvent.installCmd]).filterMap artifactEntry =
      whlSorted env := by
    split_ifs with hcase
    · have : whlFiles env = [] := by simpa using hcase
      simp [whlSorted, this]
    · simp [List.filterMap_cons, List.filterMap_append, artifactEntry,
        filterMap_comp_artifactLine]
  rw [hsucc, hfail, hart]
  rfl

/-- Claim C10: on a completed run (with the shared output directory
present at summary time) the artifact lines of the output are exactly
the `*.whl` entries of the shared output directory, sorted
lexicographically by file name (the listing is a sorted permutation of
whatever `.whl` files are there, leftovers included), and when no such
file exists the artifact section is absent from the output. -/
theorem claim_C10_artifact_listing (env : Env) (r : RunResult)
    (h : mainRun env = .ok r) (hd : env.distDirExists = true) :
    r.trace.filterMap artifactEntry = whlSorted env ∧
    (whlSorted env).Perm (whlFiles env) ∧
    List.Sorted nameLe (whlSorted env) ∧
    (whlFiles env = [] → OutEvent.artifactHeader ∉ r.trace) := by
  obtain ⟨-, -, -, htr, -⟩ := mainRun_ok env r h
  refine ⟨?_, ?_, ?_, ?_⟩
  · rw [htr, List.filterMap_append, List.filterMap_append,
      filterMap_summaryTrace env r.successes r.failures hd]
    have h1 : initState.trace.filterMap artifactEntry = [] := rfl
    have h2 : (PACKAGES.flatMap (pkgTrace env)).filterMap artifactEntry
        = [] := by
      rw [List.filterMap_eq_nil_iff]
      intro e he
      obtain ⟨q, -, hq⟩ := List.mem_flatMap.1 he
      exact artifactEntry_pkgTrace_none env q e hq
    rw [h1, h2]
    rfl
  · exact List.perm_insertionSort nameLe (whlFiles env)
  · haveI : IsTotal (String × Nat) nameLe :=
      ⟨fun x y => charListLe_total x.1.data y.1.data⟩
    haveI : IsTrans (String × Nat) nameLe :=
      ⟨fun _ _ _ hx hy => charListLe_trans _ _ _ hx hy⟩
    exact List.sorted_insertionSort nameLe (whlFiles env)
  · intro hnil
    rw [htr]
    intro hmem
    rcases List.mem_append.1 hmem with hmem | hmem
    · rcases List.mem_append.1 hmem with hmem | hmem
      · simp [initState] at hmem
      · obtain ⟨q, -, hq⟩ := List.mem_flatMap.1 hmem
        exact artifactHeader_not_pkgTrace env q hq
    · unfold summaryTrace at hmem
      rw [hd] at hmem
      simp only [if_true, hnil] at hmem
      rcases List.mem_append.1 hmem with hmem | hmem
      · rcases List.mem_append.1 hmem with hmem | hmem
        · rcases List.mem_append.1 hmem with hmem | hmem
          · simp at hmem
          · split_ifs at hmem <;> simp at hmem
        · split_ifs at hmem <;> simp at hmem
      · simp [whlFiles, hnil] at hmem

/-- Witness for C10 at the mixed world: the artifact lines are the two
wheels sorted by name, the stray `.txt` excluded. -/
theorem claim_C10_artifact_listing_witness :
    mainRun envW = Except.ok rW ∧
    rW.trace.filterMap artifactEntry = whlSorted envW ∧
    whlSorted envW = [("a.whl", 5), ("b.whl", 10)] :=
  ⟨rfl, (claim_C10_artifact_listing envW rW rfl rfl).1, rfl⟩

/-- Claim C1 counterexample: in `envC1` the candidate `core` is eligible
but the external build tool cannot be started for it.  Contrary to the
claim, the condition is not caught and not folded into a (failure,
diagnostic) Build Outcome: `run_command` only catches
`CalledProcessError`, so the start failure escapes `main`, the whole run
aborts with an uncaught error, and no Run Result (and no processing of
the remaining candidates `idp`, `notification`) happens at all. -/
theorem claim_C1_counterexample :
    mainRun envC1 =
      Except.error (PyError.fileNotFoundError "No such file or directory") ∧
    (mainRun envC1).isOk = false := ⟨rfl, rfl⟩

/-- Claim C1 amended: a failure to start the external build-tool process
for an eligible candidate is NOT caught: `run_command` propagates it and
the orchestrator aborts the entire run with an error, producing no Run
Result (hypotheses: the candidate occurs in the list, every earlier
candidate was processed without an uncaught error, and its cleanup loop
succeeded). -/
theorem claim_C1_start_error_aborts (env : Env) (pre rest : List String)
    (pkg m : String) (st : RunState) (rs : List (List String))
    (hsplit : PACKAGES = pre ++ pkg :: rest)
    (hpre : mainLoop env pre initState = Except.ok st)
    (he : eligible env pkg = true)
    (hc : cleanupStep env pkg (cleanupDirs pkg) = Except.ok rs)
    (hb : env.build pkg = ProcResult.startError m) :
    mainRun env = Except.error (PyError.fileNotFoundError m) := by
  have hstep : mainLoop env (pkg :: rest) st =
      Except.error (PyError.fileNotFoundError m) := by
    simp [mainLoop, processPackage, he, hc, hb, run_command]
  unfold mainRun
  rw [hsplit, mainLoop_append, hpre]
  simp only [Except.bind, hstep]

/-- Witness for the amended C1 at `envC1`, with `core` as the first
candidate. -/
theorem claim_C1_start_error_aborts_witness :
    PACKAGES = [] ++ "core" :: ["idp", "notification"] ∧
    mainLoop envC1 [] initState = Except.ok initState ∧
    eligible envC1 "core" = true ∧
    cleanupStep envC1 "core" (cleanupDirs "core") = Except.ok [] ∧
    envC1.build "core" = ProcResult.startError "No such file or directory" ∧
    mainRun envC1 =
      Except.error (PyError.fileNotFoundError "No such file or directory") :=
  ⟨rfl, rfl, rfl, rfl, rfl,
    claim_C1_start_error_aborts envC1 [] ["idp", "notification"] "core"
      "No such file or directory" initState [] rfl rfl rfl rfl rfl⟩

/-- Claim C2 counterexample: in `envC2` the candidate `core` is
eligible, its stale `build` directory exists, and removing it fails.
Contrary to the claim, the failure is not converted into `core`'s Build
Outcome and the run does not continue: `main` has no try/except around
`shutil.rmtree`, so the exception escapes and the whole run aborts with
an uncaught error and no Run Result. -/
theorem claim_C2_counterexample :
    mainRun envC2 =
      Except.error (PyError.osError ["clients", "python", "core", "build"]) ∧
    (mainRun envC2).isOk = false := ⟨rfl, rfl⟩

/-- Claim C2 amended: a failure to remove one of an eligible candidate's
stale-artifact directories is NOT caught by any caller: the exception
propagates out of the cleanup loop and the orchestrator aborts the
entire run with that error, producing no Run Result. -/
theorem claim_C2_rmtree_error_aborts (env : Env) (pre rest : List String)
    (pkg : String) (st : RunState) (e : PyError)
    (hsplit : PACKAGES = pre ++ pkg :: rest)
    (hpre : mainLoop env pre initState = Except.ok st)
    (he : eligible env pkg = true)
    (hc : cleanupStep env pkg (cleanupDirs pkg) = Except.error e) :
    mainRun env = Except.error e := by
  have hstep : mainLoop env (pkg :: rest) st = Except.error e := by
    simp [mainLoop, processPackage, he, hc]
  unfold mainRun
  rw [hsplit, mainLoop_append, hpre]
  simp only [Except.bind, hstep]

/-- Witness for the amended C2 at `envC2`, with `core` as the first
candidate. -/
theorem claim_C2_rmtree_error_aborts_witness :
    PACKAGES = [] ++ "core" :: ["idp", "notification"] ∧
    mainLoop envC2 [] initState = Except.ok initState ∧
    eligible envC2 "core" = true ∧
    cleanupStep envC2 "core" (cleanupDirs "core") =
      Except.error (PyError.osError ["clients", "python", "core", "build"]) ∧
    mainRun envC2 =
      Except.error (PyError.osError ["clients", "python", "core", "build"]) :=
  ⟨rfl, rfl, rfl, rfl,
    claim_C2_rmtree_error_aborts envC2 [] ["idp", "notification"] "core"
      initState (PyError.osError ["clients", "python", "core", "build"])
      rfl rfl rfl rfl⟩
